import Mathlib

/-
Verification of the zsh_ai_completion repository: a shallow embedding of
the completion server (scripts/zsh_ai_server.py), the client-side clipboard
classifier (scripts/zsh_ai_complete.py), and the process-lifecycle manager,
together with theorems settling the behavioural claims about them.

Conventions of the embedding:
* Python strings are Lean `String`s; Python `s.strip()` is `pyStrip`,
  `a in b` (substring test) is `strIn`, `s.startswith(p)` is `strStartsWith`.
* The filesystem test `os.path.exists` and the JSON parser `json.loads`
  are external effects; they enter as explicit function parameters.
* The inference engine (`llm.create_completion`) is opaque: its outcome is
  an `EngineResult`, either a produced text or a raised exception.
* Operating-system observations (pid liveness, port listeners, the process
  table, the health probe) are snapshots in a `SysState`; lifecycle
  commands are functions from such snapshots to the list of externally
  visible actions they perform.
-/

namespace ZshAI

/-- The whitespace set of Python `str.strip()` (ASCII part). -/
def isPySpace (c : Char) : Bool :=
  c = ' ' || c = '\t' || c = '\n' || c = '\r' || c = '\x0b' || c = '\x0c'

/-- Python `s.strip()`: drop whitespace from both ends. -/
def pyStrip (s : String) : String :=
  ⟨((s.data.dropWhile isPySpace).reverse.dropWhile isPySpace).reverse⟩

/-- Contiguous-substring test on character lists (worker of `strIn`). -/
def infixCheck (n : List Char) : List Char → Bool
  | [] => n.isEmpty
  | c :: t => n.isPrefixOf (c :: t) || infixCheck n t

/-- Python `needle in hay` on strings: contiguous-substring test. -/
def strIn (needle hay : String) : Bool :=
  infixCheck needle.data hay.data

/-- Python `s.startswith(p)`. -/
def strStartsWith (s p : String) : Bool :=
  p.data.isPrefixOf s.data

/-- A classified clipboard snapshot: `{"type": ..., "value": ...}`. -/
structure Clipboard where
  type : String
  value : String
deriving DecidableEq, Repr

/-- `BASE_FALLBACK`: the static default command of each supported command
word; `none` for anything outside the fixed known set (a lookup that the
Python dict would answer with `KeyError`). -/
def BASE_FALLBACK (pfx : String) : Option String :=
  if pfx = "ssh" then some "ssh root@192.168.1.1"
  else if pfx = "ls" then some "ls -l"
  else if pfx = "cd" then some "cd ~"
  else if pfx = "git" then some "git status"
  else if pfx = "docker" then some "docker ps -a"
  else if pfx = "kinit" then some "kinit yourname@DOMAIN.COM"
  else if pfx = "kubectl" then some "kubectl get pods"
  else none

/-- The `custom_fallback` selection of `generate_general_suggestion`,
given the static default `base` already looked up for `pfx`.  Mirrors the
`if / elif / elif` chain of the source: the templated override fires for
`ssh` on a non-empty clipboard of type `ip`, for `cd` on a non-empty
clipboard of type `path`, and for `git` on any non-empty clipboard value
(no type check in the source). -/
def customFallbackBase (base pfx : String) (cb : Clipboard) : String :=
  if pfx = "ssh" ∧ cb.type = "ip" ∧ cb.value ≠ "" then "ssh root@" ++ cb.value
  else if pfx = "cd" ∧ cb.type = "path" ∧ cb.value ≠ "" then "cd " ++ cb.value
  else if pfx = "git" ∧ cb.value ≠ "" then "git add " ++ cb.value
  else base

/-- The fallback of `generate_general_suggestion`, including the
`BASE_FALLBACK[prefix]` lookup (`none` = `KeyError` for unknown words). -/
def customFallback (pfx : String) (cb : Clipboard) : Option String :=
  (BASE_FALLBACK pfx).map (fun base => customFallbackBase base pfx cb)

/-- `_clip_usable` of `generate_general_suggestion`: whether the clipboard
value may be embedded into the prompt.  Works on the stripped value. -/
def clipUsable (pfx : String) (cb : Clipboard) : Bool :=
  let v := pyStrip cb.value
  if pfx = "ssh" then cb.type == "ip" && !(strIn "/" v) && !(strIn " " v)
  else if pfx = "cd" then cb.type == "path" && v != ""
  else if pfx = "git" then cb.type == "text" && v != ""
  else false

/-- The clipboard value embedded into the prompt: the real value when
usable, the empty string otherwise. -/
def clipForPrompt (pfx : String) (cb : Clipboard) : String :=
  if clipUsable pfx cb then cb.value else ""

/-- Outcome of the opaque inference engine: a produced raw text, or an
exception raised inside `llm.create_completion`. -/
inductive EngineResult where
  | ok (text : String)
  | exc
deriving DecidableEq, Repr

/-- The output-validation core of `generate_general_suggestion`, applied
after the fallback `fb` has been selected: strip the engine text, require
it to be non-empty and to start with the command word; inside that branch
the `ssh` special case returns the text whenever the raw clipboard value is
non-empty and occurs in it, otherwise a text equal to the bare command word
is replaced by the fallback.  An engine exception yields the fallback. -/
def generalSuggestionCore (pfx fb : String) (cb : Clipboard) (engine : EngineResult) : String :=
  match engine with
  | .exc => fb
  | .ok raw =>
    let s := pyStrip raw
    if s ≠ "" ∧ strStartsWith s pfx = true then
      if pfx = "ssh" ∧ cb.value ≠ "" ∧ strIn cb.value s = true then s
      else if s = pfx then fb else s
    else fb

/-- `generate_general_suggestion(prefix, clipboard, history, llm)`.  The
history only influences the prompt text, never the returned value; it is
kept as an argument for fidelity of the signature.  `none` models the
`KeyError` on an unknown command word (unreachable behind the HTTP
validation). -/
def generateGeneralSuggestion (pfx : String) (cb : Clipboard) (history : List String)
    (engine : EngineResult) : Option String :=
  let _ := history
  (BASE_FALLBACK pfx).map (fun base => generalSuggestionCore pfx (customFallbackBase base pfx cb) cb engine)

/-- `get_clipboard_content` of the client (the spec's `classify`), with the
`os.path.exists` test passed in as the oracle `fs`. -/
def classify (fs : String → Bool) (raw : String) : Clipboard :=
  let content := pyStrip raw
  if content ≠ "" ∧ strIn "." content = true ∧ fs content = false then ⟨"ip", content⟩
  else if content ≠ "" ∧ (strStartsWith content "/" = true ∨ strStartsWith content "~" = true) then
    ⟨"path", content⟩
  else ⟨"text", content⟩

/-! ## The HTTP layer (`RequestHandler`) -/

/-- A JSON response payload, as the handler serializes it. -/
inductive Payload where
  | statusOk
  | err (e : String)
  | sugg (s : String)
deriving DecidableEq, Repr

/-- A `/complete` request after JSON decoding: `req.get("prefix", "")`,
`req.get("clipboard", {"type": "text", "value": ""})`, and
`req.get("history", [])` of the source, with the `.get` defaults already
applied. -/
structure CompletionReq where
  pfx : String
  clipboard : Clipboard
  history : List String
deriving DecidableEq, Repr

/-- The request object produced for the substituted empty body: all three
`.get` defaults. -/
def defaultReq : CompletionReq := ⟨"", ⟨"text", ""⟩, []⟩

/-- The literal `b"{}"` the handler substitutes for an absent body. -/
def emptyObjectBody : String := "\x7b\x7d"

/-- `do_GET`: `/health` answers `200 {"status": "ok"}`, anything else 404. -/
def do_GET (path : String) : Nat × Payload :=
  if path = "/health" then (200, .statusOk) else (404, .err "not_found")

/-- Routing of a POST after body decoding: wrong path is 404, an
undecodable body 400 `bad_json`, an empty or unknown command word 400
`bad_prefix`, and only the remaining requests reach the engine. -/
inductive PostRoute where
  | immediate (code : Nat) (p : Payload)
  | infer (req : CompletionReq)
deriving DecidableEq, Repr

/-- The validation chain of `do_POST` before the inference call. -/
def routePost (path : String) (parsed : Option CompletionReq) : PostRoute :=
  if path ≠ "/complete" then .immediate 404 (.err "not_found")
  else
    match parsed with
    | none => .immediate 400 (.err "bad_json")
    | some req =>
      if req.pfx = "" ∨ BASE_FALLBACK req.pfx = none then .immediate 400 (.err "bad_prefix")
      else .infer req

/-- The 200 response produced under the inference lock. -/
def inferResponse (req : CompletionReq) (engine : EngineResult) : Nat × Payload :=
  (200, .sugg ((generateGeneralSuggestion req.pfx req.clipboard req.history engine).getD ""))

/-- `do_POST`: `parse` stands for `json.loads` composed with the `.get`
field extraction (`none` = the body raised in `json.loads`); a
`Content-Length` of zero makes the handler decode the literal `b"{}"`
instead of the body. -/
def do_POST (parse : String → Option CompletionReq) (engine : EngineResult)
    (path : String) (contentLength : Nat) (body : String) : Nat × Payload :=
  match routePost path (parse (if contentLength > 0 then body else emptyObjectBody)) with
  | .immediate c p => (c, p)
  | .infer req => inferResponse req engine

example : pyStrip "  a b \n" = "a b" := by decide
example : strIn "1.2.3.4" "connect 1.2.3.4" = true := by decide
example : strIn "/" "a b" = false := by decide
example : strStartsWith "ssh root@x" "ssh" = true := by decide
example : classify (fun _ => false) "10.0.0.5" = ⟨"ip", "10.0.0.5"⟩ := by decide
example : ∀ fs : String → Bool, classify fs "~/projects" = ⟨"path", "~/projects"⟩ :=
  fun _ => rfl
example : ∀ fs : String → Bool, classify fs "hello world" = ⟨"text", "hello world"⟩ :=
  fun _ => rfl
example : generateGeneralSuggestion "git" ⟨"ip", "1.2.3.4"⟩ [] .exc = some "git add 1.2.3.4" := by
  decide
example : generateGeneralSuggestion "ssh" ⟨"ip", "1.2.3.4"⟩ [] (.ok "connect 1.2.3.4")
    = some "ssh root@1.2.3.4" := by decide
example : do_POST (fun s => if s = emptyObjectBody then some defaultReq else none) .exc
    "/complete" 0 "" = (400, .err "bad_prefix") := by decide

/-! ## The process-lifecycle manager (`status` / `stop` / startup binding)

The operating system enters as a snapshot `SysState` of everything the
manager can observe: the two record files, the port-listener table
(`lsof`), the process-table scan (`ps`), per-pid liveness (`os.kill(pid,
0)`), and whether the port answers `/health` (`check_server_alive`).
Commands return the list of externally visible actions they perform. -/

/-- One observable snapshot of the operating system. -/
structure SysState where
  /-- `_read_pid()`: the integer in the pid file, if readable. -/
  pidFile : Option Nat
  /-- `_read_meta().get("pid")`. -/
  metaPid : Option Nat
  /-- `_read_meta().get("host")`. -/
  metaHost : Option String
  /-- `_read_meta().get("port")`. -/
  metaPort : Option Nat
  /-- `_lsof_listen_pid(port)`: pids listening on the configured port. -/
  lsofPids : List Nat
  /-- `find_server_pids()`: process-table entries running the server script. -/
  psPids : List Nat
  /-- `os.kill(p, 0)` succeeds. -/
  alive : Nat → Bool
  /-- `check_server_alive(host, port)`: the port answers `/health` with ok. -/
  healthAlive : Bool

/-- `_pid_running`: false for the falsy pid 0, otherwise the liveness
probe. -/
def pyPidRunning (w : SysState) (p : Nat) : Bool :=
  p != 0 && w.alive p

/-- `_collect_pids`: the union (a Python set; only membership is
meaningful) of all four discovery strategies, kept only when currently
running. -/
def collectPids (w : SysState) : List Nat :=
  ((w.pidFile.toList ++ w.metaPid.toList ++ w.lsofPids ++ w.psPids).dedup).filter
    (pyPidRunning w)

/-- `_wait_stopped`'s success condition, evaluated on the snapshot a poll
phase ends in: no candidate pid alive and the port no longer answers. -/
def quiescent (w : SysState) (pids : List Nat) : Bool :=
  !w.healthAlive && pids.all (fun p => !(pyPidRunning w p))

/-- An externally visible action of a lifecycle command. -/
inductive Act where
  | print (s : String)
  | printErr (s : String)
  | signal (pids : List Nat) (sig : Nat)
  | poll (timeoutDs : Nat)
  | removeRecords
  | exitWith (c : Nat)
  | writeRecords
  | serveForever
  | reraise
deriving DecidableEq, Repr

def SIGTERM : Nat := 15
def SIGKILL : Nat := 9

/-- The graceful poll window of `stop`, in tenths of a second (3.0 s). -/
def STOP_TERM_POLL_DS : Nat := 30
/-- The forceful poll window of `stop`, in tenths of a second (2.0 s). -/
def STOP_KILL_POLL_DS : Nat := 20

/-- The world a `stop` invocation runs through: the snapshot it collects
candidates from, the snapshots its two poll windows end in, and the
snapshot of its final re-check.  Nothing links the snapshots: the theorems
hold for every evolution. -/
structure StopWorld where
  init : SysState
  afterTerm : SysState
  afterKill : SysState
  final : SysState

/-- The signalling phase of `stop`: nothing when no candidate is alive;
otherwise SIGTERM to all candidates with the 3-second poll, escalated to
SIGKILL with the 2-second poll when the graceful poll does not reach
quiescence. -/
def stopPhase (w : StopWorld) : List Act :=
  if collectPids w.init = [] then []
  else
    [.signal (collectPids w.init) SIGTERM, .poll STOP_TERM_POLL_DS] ++
      (if quiescent w.afterTerm (collectPids w.init) then []
       else [.signal (collectPids w.init) SIGKILL, .poll STOP_KILL_POLL_DS])

/-- The final re-check of `stop`: port dead and every collected candidate
dead, on the final snapshot. -/
def stopOk (w : StopWorld) : Bool :=
  !w.final.healthAlive && (collectPids w.init).all (fun p => !(pyPidRunning w.final p))

/-- The `stop` subcommand of `__main__`. -/
def runStop (w : StopWorld) : List Act :=
  stopPhase w ++ [Act.removeRecords] ++
    (if stopOk w then [.print "STOPPED", .exitWith 0]
     else [.print "STOPPED_WITH_ISSUE", .exitWith 1])

/-- The pid-record probe of `status`: `pid and _pid_running(pid)`. -/
def pidFileHit (w : SysState) : Option Nat :=
  w.pidFile.bind (fun p => if pyPidRunning w p then some p else none)

/-- The meta-record probe of `status`. -/
def metaHit (w : SysState) : Option Nat :=
  w.metaPid.bind (fun p => if pyPidRunning w p then some p else none)

/-- Python truthiness on an optional pid: 0 counts as absent. -/
def truthyPid (o : Option Nat) : Option Nat :=
  o.bind (fun p => if p = 0 then none else some p)

/-- The `RUNNING <pid> <host>:<port>` line. -/
def runningMsg (pid : Nat) (host : String) (port : Nat) : String :=
  "RUNNING " ++ Nat.repr pid ++ " " ++ host ++ ":" ++ Nat.repr port

/-- The `status` subcommand of `__main__`: output line and exit code. -/
def runStatus (w : SysState) (host : String) (port : Nat) : String × Nat :=
  match pidFileHit w with
  | some p => (runningMsg p host port, 0)
  | none =>
    if w.healthAlive then
      match truthyPid w.lsofPids.head? with
      | some p2 => (runningMsg p2 host port, 0)
      | none =>
        match w.psPids with
        | p3 :: _ => (runningMsg p3 host port, 0)
        | [] => ("RUNNING ? " ++ host ++ ":" ++ Nat.repr port, 0)
    else
      match metaHit w with
      | some p4 => (runningMsg p4 (w.metaHost.getD host) (w.metaPort.getD port), 0)
      | none =>
        match w.psPids with
        | p5 :: _ => (runningMsg p5 host port, 0)
        | [] => ("STOPPED", 1)

/-- The startup banner when the occupant of the port is this service. -/
def alreadyRunningMsg (host : String) (port : Nat) : String :=
  "INFO: 服务已在 " ++ host ++ ":" ++ Nat.repr port ++ " 运行"

/-- The startup error when the occupant is a foreign process. -/
def foreignPortMsg (host : String) (port : Nat) : String :=
  "ERROR: 端口占用 " ++ host ++ ":" ++ Nat.repr port ++ "，但不是本服务。请更换端口或释放该端口。"

/-- Whether an `OSError` errno means "address already in use" (48 on
macOS, 98 on Linux), as `__main__` tests. -/
def portInUseErrno (e : Nat) : Bool :=
  e == 48 || e == 98

/-- The default (no-subcommand) startup branch of `__main__`:
`bindErrno = none` is a successful bind, `some e` an `OSError` carrying
errno `e`; `healthAlive` is the `/health` probe of the occupant. -/
def startMain (host : String) (port : Nat) (bindErrno : Option Nat)
    (healthAlive : Bool) : List Act :=
  match bindErrno with
  | none => [.writeRecords, .serveForever]
  | some e =>
    if portInUseErrno e then
      if healthAlive then [.print (alreadyRunningMsg host port), .exitWith 0]
      else [.printErr (foreignPortMsg host port), .exitWith 1]
    else [.reraise]

example :
    runStatus ⟨none, none, none, none, [42], [], fun p => p == 42, false⟩ "127.0.0.1" 8765
      = ("STOPPED", 1) := by decide
example :
    runStatus ⟨none, none, none, none, [], [], fun _ => false, true⟩ "127.0.0.1" 8765
      = ("RUNNING ? 127.0.0.1:8765", 0) := by decide
example :
    runStop ⟨⟨none, none, none, none, [], [], fun _ => false, false⟩,
             ⟨none, none, none, none, [], [], fun _ => false, false⟩,
             ⟨none, none, none, none, [], [], fun _ => false, false⟩,
             ⟨none, none, none, none, [], [], fun _ => false, false⟩⟩
      = [Act.removeRecords, .print "STOPPED", .exitWith 0] := by decide
example : startMain "h" 1 (some 98) true = [.print (alreadyRunningMsg "h" 1), .exitWith 0] := by
  decide

/-! ## Concurrency: the `/complete` handler under `INFER_LOCK`

`ThreadingHTTPServer` runs one handler thread per accepted connection; all
threads share the single `INFER_LOCK`.  Each handler performs its
unsynchronized validation (modelled atomically, since it touches no shared
state), then — only when validation reaches the engine — waits for the
lock, runs the inference while holding it, and releases it when it
responds.  The interleaving of `n` concurrent requests is a step relation
on `SState n`. -/

/-- Program counter of one handler thread. -/
inductive TPc where
  | start
  | want
  | crit
  | done
deriving DecidableEq, Repr

/-- The per-thread request data, fixed for the thread's whole life:
its path, the decoded body (`none` = undecodable JSON), and what the
engine will produce for it. -/
structure ThreadCtx where
  path : String
  parsed : Option CompletionReq
  engine : EngineResult

/-- Shared server state for `n` in-flight requests: each thread's program
counter, the holder of `INFER_LOCK`, and the responses sent so far. -/
structure SState (n : ℕ) where
  pc : Fin n → TPc
  lock : Option (Fin n)
  resp : Fin n → Option (Nat × Payload)

/-- All threads at their entry point, lock free, nothing answered. -/
def initState (n : ℕ) : SState n :=
  ⟨fun _ => .start, none, fun _ => none⟩

/-- One interleaving step of the handler pool. -/
inductive Step {n : ℕ} (env : Fin n → ThreadCtx) : SState n → SState n → Prop where
  /-- Validation fails: the thread answers 404/400 without touching the
  lock. -/
  | reject (s : SState n) (t : Fin n) (c : Nat) (p : Payload)
      (h1 : s.pc t = .start)
      (h2 : routePost (env t).path (env t).parsed = .immediate c p) :
      Step env s ⟨Function.update s.pc t .done, s.lock, Function.update s.resp t (some (c, p))⟩
  /-- Validation succeeds: the thread starts waiting on `INFER_LOCK`. -/
  | enter (s : SState n) (t : Fin n) (req : CompletionReq)
      (h1 : s.pc t = .start)
      (h2 : routePost (env t).path (env t).parsed = .infer req) :
      Step env s ⟨Function.update s.pc t .want, s.lock, s.resp⟩
  /-- The lock is free: a waiting thread takes it. -/
  | acquire (s : SState n) (t : Fin n)
      (h1 : s.pc t = .want)
      (h2 : s.lock = none) :
      Step env s ⟨Function.update s.pc t .crit, some t, s.resp⟩
  /-- The inference finishes: the holder responds and releases the lock. -/
  | finish (s : SState n) (t : Fin n) (req : CompletionReq)
      (h1 : s.pc t = .crit)
      (h2 : s.lock = some t)
      (h3 : routePost (env t).path (env t).parsed = .infer req) :
      Step env s ⟨Function.update s.pc t .done, none,
        Function.update s.resp t (some (inferResponse req (env t).engine))⟩

/-- States the pool can be in after any interleaving. -/
def Reachable {n : ℕ} (env : Fin n → ThreadCtx) (s : SState n) : Prop :=
  Relation.ReflTransGen (Step env) (initState n) s

/-- A response the handler can actually serialize: one of the three
protocol errors or a 200 suggestion. -/
def WellFormedResp (r : Nat × Payload) : Prop :=
  r = (404, .err "not_found") ∨ r = (400, .err "bad_json") ∨
    r = (400, .err "bad_prefix") ∨ ∃ s, r = (200, Payload.sugg s)

/-- The inductive invariant of the pool: the lock names exactly the
threads inside the inference section, threads at or past the lock carry an
inference-bound request, and every finished thread has sent a well-formed
response. -/
def Inv {n : ℕ} (env : Fin n → ThreadCtx) (s : SState n) : Prop :=
  (∀ t, s.pc t = .crit → s.lock = some t) ∧
  (∀ t, s.lock = some t → s.pc t = .crit) ∧
  (∀ t, s.pc t = .want ∨ s.pc t = .crit →
      ∃ req, routePost (env t).path (env t).parsed = .infer req) ∧
  (∀ t, s.pc t = .done → ∃ r, s.resp t = some r ∧ WellFormedResp r)

lemma routePost_immediate_wellFormed {path : String} {parsed : Option CompletionReq}
    {c : Nat} {p : Payload} (h : routePost path parsed = .immediate c p) :
    WellFormedResp (c, p) := by
  unfold routePost at h
  split at h
  · cases h; exact Or.inl rfl
  · cases parsed with
    | none => cases h; exact Or.inr (Or.inl rfl)
    | some req =>
      simp only at h
      split at h
      · cases h; exact Or.inr (Or.inr (Or.inl rfl))
      · cases h

lemma inferResponse_wellFormed (req : CompletionReq) (e : EngineResult) :
    WellFormedResp (inferResponse req e) :=
  Or.inr (Or.inr (Or.inr ⟨_, rfl⟩))

lemma inv_init {n : ℕ} (env : Fin n → ThreadCtx) : Inv env (initState n) := by
  refine ⟨fun t ht => ?_, fun t ht => ?_, fun t ht => ?_, fun t ht => ?_⟩ <;>
    simp [initState] at ht

lemma inv_step {n : ℕ} {env : Fin n → ThreadCtx} {s s' : SState n}
    (hinv : Inv env s) (hstep : Step env s s') : Inv env s' := by
  obtain ⟨i1, i2, i3, i4⟩ := hinv
  cases hstep with
  | reject t c p h1 h2 =>
    refine ⟨fun u hu => ?_, fun u hu => ?_, fun u hu => ?_, fun u hu => ?_⟩
    · dsimp only at hu ⊢
      by_cases hut : u = t
      · subst hut; rw [Function.update_same] at hu; cases hu
      · rw [Function.update_noteq hut] at hu; exact i1 u hu
    · dsimp only at hu ⊢
      have hcrit := i2 u hu
      by_cases hut : u = t
      · subst hut; rw [h1] at hcrit; cases hcrit
      · rw [Function.update_noteq hut]; exact hcrit
    · dsimp only at hu
      by_cases hut : u = t
      · subst hut; rw [Function.update_same] at hu
        rcases hu with hu | hu <;> cases hu
      · rw [Function.update_noteq hut] at hu; exact i3 u hu
    · dsimp only at hu ⊢
      by_cases hut : u = t
      · subst hut; rw [Function.update_same] at hu
        rw [Function.update_same]
        exact ⟨(c, p), rfl, routePost_immediate_wellFormed h2⟩
      · rw [Function.update_noteq hut] at hu ⊢; exact i4 u hu
  | enter t req h1 h2 =>
    refine ⟨fun u hu => ?_, fun u hu => ?_, fun u hu => ?_, fun u hu => ?_⟩
    · dsimp only at hu ⊢
      by_cases hut : u = t
      · subst hut; rw [Function.update_same] at hu; cases hu
      · rw [Function.update_noteq hut] at hu; exact i1 u hu
    · dsimp only at hu ⊢
      have hcrit := i2 u hu
      by_cases hut : u = t
      · subst hut; rw [h1] at hcrit; cases hcrit
      · rw [Function.update_noteq hut]; exact hcrit
    · dsimp only at hu
      by_cases hut : u = t
      · subst hut; exact ⟨req, h2⟩
      · rw [Function.update_noteq hut] at hu; exact i3 u hu
    · dsimp only at hu ⊢
      by_cases hut : u = t
      · subst hut; rw [Function.update_same] at hu; cases hu
      · rw [Function.update_noteq hut] at hu; exact i4 u hu
  | acquire t h1 h2 =>
    refine ⟨fun u hu => ?_, fun u hu => ?_, fun u hu => ?_, fun u hu => ?_⟩
    · dsimp only at hu ⊢
      by_cases hut : u = t
      · subst hut; rfl
      · rw [Function.update_noteq hut] at hu
        have hl := i1 u hu; rw [h2] at hl; cases hl
    · dsimp only at hu ⊢
      cases hu
      rw [Function.update_same]
    · dsimp only at hu
      by_cases hut : u = t
      · subst hut; exact i3 u (Or.inl h1)
      · rw [Function.update_noteq hut] at hu; exact i3 u hu
    · dsimp only at hu ⊢
      by_cases hut : u = t
      · subst hut; rw [Function.update_same] at hu; cases hu
      · rw [Function.update_noteq hut] at hu; exact i4 u hu
  | finish t req h1 h2 h3 =>
    refine ⟨fun u hu => ?_, fun u hu => ?_, fun u hu => ?_, fun u hu => ?_⟩
    · dsimp only at hu ⊢
      by_cases hut : u = t
      · subst hut; rw [Function.update_same] at hu; cases hu
      · rw [Function.update_noteq hut] at hu
        have hl := i1 u hu; rw [h2] at hl
        cases hl; exact absurd rfl hut
    · dsimp only at hu
      cases hu
    · dsimp only at hu
      by_cases hut : u = t
      · subst hut; rw [Function.update_same] at hu
        rcases hu with hu | hu <;> cases hu
      · rw [Function.update_noteq hut] at hu; exact i3 u hu
    · dsimp only at hu ⊢
      by_cases hut : u = t
      · subst hut; rw [Function.update_same] at hu
        rw [Function.update_same]
        exact ⟨_, rfl, inferResponse_wellFormed req (env u).engine⟩
      · rw [Function.update_noteq hut] at hu ⊢; exact i4 u hu

lemma inv_reachable {n : ℕ} {env : Fin n → ThreadCtx} {s : SState n}
    (h : Reachable env s) : Inv env s := by
  induction h with
  | refl => exact inv_init env
  | tail _ hstep ih => exact inv_step ih hstep

/-- Rank of a program counter: how many steps the thread can still take. -/
def pcRank : TPc → Nat
  | .start => 3
  | .want => 2
  | .crit => 1
  | .done => 0

/-- The global variant: total remaining steps over all threads. -/
def meas {n : ℕ} (s : SState n) : Nat :=
  Finset.univ.sum (fun t => pcRank (s.pc t))

lemma meas_update_lt {n : ℕ} (pc : Fin n → TPc) (t : Fin n) (v : TPc)
    (h : pcRank v < pcRank (pc t)) :
    Finset.univ.sum (fun u => pcRank (Function.update pc t v u)) <
      Finset.univ.sum (fun u => pcRank (pc u)) := by
  have hfun : (fun u => pcRank (Function.update pc t v u)) =
      Function.update (fun u => pcRank (pc u)) t (pcRank v) := by
    funext u
    by_cases hut : u = t
    · subst hut; rw [Function.update_same, Function.update_same]
    · rw [Function.update_noteq hut, Function.update_noteq hut]
  rw [hfun, Finset.sum_update_of_mem (Finset.mem_univ t)]
  have hsplit : Finset.univ.sum (fun u => pcRank (pc u)) =
      pcRank (pc t) + (Finset.univ \ {t}).sum (fun u => pcRank (pc u)) := by
    rw [Finset.sum_eq_add_sum_diff_singleton (Finset.mem_univ t)]
  omega

lemma meas_step {n : ℕ} {env : Fin n → ThreadCtx} {s s' : SState n}
    (hstep : Step env s s') : meas s' < meas s := by
  cases hstep with
  | reject t c p h1 h2 =>
    exact meas_update_lt s.pc t .done (by rw [h1]; decide)
  | enter t req h1 h2 =>
    exact meas_update_lt s.pc t .want (by rw [h1]; decide)
  | acquire t h1 h2 =>
    exact meas_update_lt s.pc t .crit (by rw [h1]; decide)
  | finish t req h1 h2 h3 =>
    exact meas_update_lt s.pc t .done (by rw [h1]; decide)

lemma chain_length_le_meas {n : ℕ} {env : Fin n → ThreadCtx} :
    ∀ (l : List (SState n)) (s : SState n), List.Chain (Step env) s l → l.length ≤ meas s := by
  intro l
  induction l with
  | nil => intro s _; exact Nat.zero_le _
  | cons x xs ih =>
    intro s h
    cases h with
    | cons hstep hchain =>
      have h1 : meas x < meas s := meas_step hstep
      have h2 := ih x hchain
      simpa using Nat.lt_of_lt_of_le (Nat.lt_succ_of_le h2) (Nat.succ_le_of_lt (by omega))

lemma meas_init (n : ℕ) : meas (initState n) = 3 * n := by
  have h : pcRank .start = 3 := rfl
  unfold meas initState
  simp only [Finset.sum_const, Finset.card_univ, Fintype.card_fin, smul_eq_mul, h]
  omega

/-- In a reachable state from which no thread can step, every thread has
finished. -/
lemma terminal_all_done {n : ℕ} {env : Fin n → ThreadCtx} {s : SState n}
    (hinv : Inv env s) (hterm : ∀ s', ¬ Step env s s') : ∀ t, s.pc t = .done := by
  obtain ⟨i1, i2, i3, i4⟩ := hinv
  intro t
  cases hpc : s.pc t with
  | start =>
    cases hr : routePost (env t).path (env t).parsed with
    | immediate c p => exact absurd (Step.reject s t c p hpc hr) (hterm _)
    | infer req => exact absurd (Step.enter s t req hpc hr) (hterm _)
  | want =>
    cases hlock : s.lock with
    | none => exact absurd (Step.acquire s t hpc hlock) (hterm _)
    | some u =>
      have hcu : s.pc u = .crit := i2 u hlock
      obtain ⟨req, hr⟩ := i3 u (Or.inr hcu)
      exact absurd (Step.finish s u req hcu hlock hr) (hterm _)
  | crit =>
    have hl := i1 t hpc
    obtain ⟨req, hr⟩ := i3 t (Or.inr hpc)
    exact absurd (Step.finish s t req hpc hl hr) (hterm _)
  | done => rfl

/-! ## Helper lemmas on the string model -/

lemma isPrefixOf_append_of : ∀ (p l r : List Char),
    p.isPrefixOf l = true → p.isPrefixOf (l ++ r) = true := by
  intro p
  induction p with
  | nil => intro l r _; simp [List.isPrefixOf]
  | cons c cs ih =>
    intro l r h
    cases l with
    | nil => simp [List.isPrefixOf] at h
    | cons d ds =>
      simp only [List.isPrefixOf, List.cons_append, Bool.and_eq_true] at h ⊢
      exact ⟨h.1, ih ds r h.2⟩

lemma strStartsWith_append_left (p a b : String) (h : strStartsWith a p = true) :
    strStartsWith (a ++ b) p = true := by
  unfold strStartsWith at h ⊢
  rw [String.data_append]
  exact isPrefixOf_append_of p.data a.data b.data h

lemma append_ne_empty_left (a b : String) (h : a ≠ "") : a ++ b ≠ "" := by
  intro hc
  apply h
  have hd : (a ++ b).data = [] := by rw [hc]
  rw [String.data_append] at hd
  have ha : a.data = [] := (List.append_eq_nil.mp hd).1
  cases a with
  | mk d => cases ha; rfl

/-- Inversion of the static-fallback lookup: a successful lookup pins the
command word and its default to one of the seven table entries. -/
lemma BASE_FALLBACK_cases {pfx base : String} (h : BASE_FALLBACK pfx = some base) :
    (pfx = "ssh" ∧ base = "ssh root@192.168.1.1") ∨
    (pfx = "ls" ∧ base = "ls -l") ∨
    (pfx = "cd" ∧ base = "cd ~") ∨
    (pfx = "git" ∧ base = "git status") ∨
    (pfx = "docker" ∧ base = "docker ps -a") ∨
    (pfx = "kinit" ∧ base = "kinit yourname@DOMAIN.COM") ∨
    (pfx = "kubectl" ∧ base = "kubectl get pods") := by
  unfold BASE_FALLBACK at h
  split_ifs at h with h1 h2 h3 h4 h5 h6 h7 <;>
    first
      | exact Or.inl ⟨h1, (Option.some.inj h).symm⟩
      | exact Or.inr (Or.inl ⟨h2, (Option.some.inj h).symm⟩)
      | exact Or.inr (Or.inr (Or.inl ⟨h3, (Option.some.inj h).symm⟩))
      | exact Or.inr (Or.inr (Or.inr (Or.inl ⟨h4, (Option.some.inj h).symm⟩)))
      | exact Or.inr (Or.inr (Or.inr (Or.inr (Or.inl ⟨h5, (Option.some.inj h).symm⟩))))
      | exact Or.inr (Or.inr (Or.inr (Or.inr (Or.inr (Or.inl ⟨h6, (Option.some.inj h).symm⟩)))))
      | exact Or.inr (Or.inr (Or.inr (Or.inr (Or.inr (Or.inr ⟨h7, (Option.some.inj h).symm⟩)))))


/-! ## Claim C2: fallback selection vs. the clipboard-usability rule -/

/-- C2 counterexample: for the word `git` with clipboard
`{type: ip, value: "1.2.3.4"}` the usability rule rejects the clipboard
(it requires type `text`), yet the fallback is the templated
`git add 1.2.3.4`, not the static default `git status`. -/
theorem c2_counterexample :
    clipUsable "git" ⟨"ip", "1.2.3.4"⟩ = false ∧
    BASE_FALLBACK "git" = some "git status" ∧
    generateGeneralSuggestion "git" ⟨"ip", "1.2.3.4"⟩ [] .exc = some "git add 1.2.3.4" ∧
    "git add 1.2.3.4" ≠ "git status" := by
  refine ⟨by decide, by decide, by decide, by decide⟩

/-- C2 (amended): the fallback is the templated command exactly when the
template condition of the source holds — `ssh`: clipboard type `ip` and
non-empty value; `cd`: type `path` and non-empty value; `git`: non-empty
value of any type; every other supported word always keeps its static
default.  (The `_clip_usable` rule governs only the prompt, not the
fallback.)  The last conjunct ties the selection into
`generate_general_suggestion`. -/
theorem c2_fallback_template_conditions : ∀ cb : Clipboard,
    (customFallbackBase "ssh root@192.168.1.1" "ssh" cb =
      if cb.type = "ip" ∧ cb.value ≠ "" then "ssh root@" ++ cb.value
      else "ssh root@192.168.1.1") ∧
    (customFallbackBase "cd ~" "cd" cb =
      if cb.type = "path" ∧ cb.value ≠ "" then "cd " ++ cb.value else "cd ~") ∧
    (customFallbackBase "git status" "git" cb =
      if cb.value ≠ "" then "git add " ++ cb.value else "git status") ∧
    (∀ pfx base, pfx ≠ "ssh" → pfx ≠ "cd" → pfx ≠ "git" →
      customFallbackBase base pfx cb = base) ∧
    (∀ pfx base hist, BASE_FALLBACK pfx = some base →
      generateGeneralSuggestion pfx cb hist .exc = some (customFallbackBase base pfx cb)) := by
  intro cb
  refine ⟨?_, ?_, ?_, ?_, ?_⟩
  · unfold customFallbackBase
    by_cases h : cb.type = "ip" ∧ cb.value ≠ ""
    · rw [if_pos ⟨rfl, h.1, h.2⟩, if_pos h]
    · rw [if_neg (fun hx => h ⟨hx.2.1, hx.2.2⟩),
          if_neg (fun hx => absurd hx.1 (by decide)),
          if_neg (fun hx => absurd hx.1 (by decide)), if_neg h]
  · unfold customFallbackBase
    by_cases h : cb.type = "path" ∧ cb.value ≠ ""
    · rw [if_neg (fun hx => absurd hx.1 (by decide)), if_pos ⟨rfl, h.1, h.2⟩, if_pos h]
    · rw [if_neg (fun hx => absurd hx.1 (by decide)),
          if_neg (fun hx => h ⟨hx.2.1, hx.2.2⟩),
          if_neg (fun hx => absurd hx.1 (by decide)), if_neg h]
  · unfold customFallbackBase
    by_cases h : cb.value ≠ ""
    · rw [if_neg (fun hx => absurd hx.1 (by decide)),
          if_neg (fun hx => absurd hx.1 (by decide)), if_pos ⟨rfl, h⟩, if_pos h]
    · rw [if_neg (fun hx => absurd hx.1 (by decide)),
          if_neg (fun hx => absurd hx.1 (by decide)),
          if_neg (fun hx => h hx.2), if_neg h]
  · intro pfx base hssh hcd hgit
    unfold customFallbackBase
    rw [if_neg (fun hx => hssh hx.1), if_neg (fun hx => hcd hx.1),
        if_neg (fun hx => hgit hx.1)]
  · intro pfx base hist h
    simp [generateGeneralSuggestion, h, generalSuggestionCore]

/-- C2 witness: the amended characterization evaluated at concrete
inputs — `docker` never templates, and the `cd` fallback reaches
`generate_general_suggestion`. -/
theorem c2_fallback_template_conditions_witness :
    customFallbackBase "docker ps -a" "docker" ⟨"path", "/tmp"⟩ = "docker ps -a" ∧
    generateGeneralSuggestion "cd" ⟨"path", "/tmp"⟩ [] .exc =
      some (customFallbackBase "cd ~" "cd" ⟨"path", "/tmp"⟩) :=
  ⟨(c2_fallback_template_conditions ⟨"path", "/tmp"⟩).2.2.2.1 "docker" "docker ps -a"
      (by decide) (by decide) (by decide),
   (c2_fallback_template_conditions ⟨"path", "/tmp"⟩).2.2.2.2 "cd" "cd ~" [] rfl⟩

/-! ## Claim C3: validation of the engine output -/

/-- C3 counterexample: with a usable clipboard IP that occurs literally in
the engine output, the output is *not* accepted unconditionally — because
`connect 1.2.3.4` does not start with `ssh`, the gateway still falls back
to `ssh root@1.2.3.4`. -/
theorem c3_counterexample :
    clipUsable "ssh" ⟨"ip", "1.2.3.4"⟩ = true ∧
    strIn "1.2.3.4" (pyStrip "connect 1.2.3.4") = true ∧
    generateGeneralSuggestion "ssh" ⟨"ip", "1.2.3.4"⟩ [] (.ok "connect 1.2.3.4")
      = some "ssh root@1.2.3.4" ∧
    "ssh root@1.2.3.4" ≠ "connect 1.2.3.4" := by
  refine ⟨by decide, by decide, by decide, by decide⟩

/-- C3 (amended): for every supported word, the gateway returns the
fallback exactly on an engine exception, an empty stripped output, an
output not starting with the word, or an output equal to the bare word —
except that for `ssh` an output equal to the bare word is still returned
verbatim when the raw (not necessarily usable) clipboard value is
non-empty and occurs in it.  The result always exists (exceptions never
propagate) and is always either the fallback or the stripped output. -/
theorem c3_engine_output_validation :
    ∀ (pfx base : String) (cb : Clipboard) (hist : List String) (raw : String),
    BASE_FALLBACK pfx = some base →
    (generateGeneralSuggestion pfx cb hist .exc = some (customFallbackBase base pfx cb)) ∧
    (∀ e : EngineResult, (generateGeneralSuggestion pfx cb hist e).isSome = true) ∧
    (generateGeneralSuggestion pfx cb hist (.ok raw) =
      some (if pyStrip raw ≠ "" ∧ strStartsWith (pyStrip raw) pfx = true then
              (if pfx = "ssh" ∧ cb.value ≠ "" ∧ strIn cb.value (pyStrip raw) = true then
                pyStrip raw
               else if pyStrip raw = pfx then customFallbackBase base pfx cb
               else pyStrip raw)
            else customFallbackBase base pfx cb)) ∧
    (generateGeneralSuggestion pfx cb hist (.ok raw) = some (customFallbackBase base pfx cb) ∨
      generateGeneralSuggestion pfx cb hist (.ok raw) = some (pyStrip raw)) := by
  intro pfx base cb hist raw h
  refine ⟨by simp [generateGeneralSuggestion, h, generalSuggestionCore],
    fun e => by simp [generateGeneralSuggestion, h],
    by simp [generateGeneralSuggestion, h, generalSuggestionCore], ?_⟩
  simp only [generateGeneralSuggestion, h, Option.map_some, generalSuggestionCore]
  split_ifs <;> simp

/-- C3 witness: the validation characterization at a concrete request. -/
theorem c3_engine_output_validation_witness :
    generateGeneralSuggestion "ls" ⟨"text", ""⟩ [] .exc
        = some (customFallbackBase "ls -l" "ls" ⟨"text", ""⟩) ∧
    (generateGeneralSuggestion "ls" ⟨"text", ""⟩ [] (.ok "ls -la")
        = some (customFallbackBase "ls -l" "ls" ⟨"text", ""⟩) ∨
      generateGeneralSuggestion "ls" ⟨"text", ""⟩ [] (.ok "ls -la") = some (pyStrip "ls -la")) :=
  ⟨(c3_engine_output_validation "ls" "ls -l" ⟨"text", ""⟩ [] "ls -la" rfl).1,
   (c3_engine_output_validation "ls" "ls -l" ⟨"text", ""⟩ [] "ls -la" rfl).2.2.2⟩

/-! ## Claim C8: the clipboard classifier -/

/-- C8 (confirmed): `classify` is total by construction and applies, in
order — stripped-empty input gives `text` with empty value; an input
containing `.` that the filesystem oracle rejects gives `ip`; an input
starting with `/` or `~` gives `path`; everything else gives `text` —
together with the three concrete examples from the spec. -/
theorem c8_classify_rules : ∀ (fs : String → Bool) (raw : String),
    (pyStrip raw = "" → classify fs raw = ⟨"text", ""⟩) ∧
    (pyStrip raw ≠ "" → strIn "." (pyStrip raw) = true → fs (pyStrip raw) = false →
      classify fs raw = ⟨"ip", pyStrip raw⟩) ∧
    (pyStrip raw ≠ "" → (strIn "." (pyStrip raw) = false ∨ fs (pyStrip raw) = true) →
      (strStartsWith (pyStrip raw) "/" = true ∨ strStartsWith (pyStrip raw) "~" = true) →
      classify fs raw = ⟨"path", pyStrip raw⟩) ∧
    (pyStrip raw ≠ "" → (strIn "." (pyStrip raw) = false ∨ fs (pyStrip raw) = true) →
      strStartsWith (pyStrip raw) "/" = false → strStartsWith (pyStrip raw) "~" = false →
      classify fs raw = ⟨"text", pyStrip raw⟩) ∧
    classify fs "~/projects" = ⟨"path", "~/projects"⟩ ∧
    classify (fun _ => false) "10.0.0.5" = ⟨"ip", "10.0.0.5"⟩ ∧
    classify fs "hello world" = ⟨"text", "hello world"⟩ := by
  intro fs raw
  refine ⟨?_, ?_, ?_, ?_, rfl, by decide, rfl⟩
  · intro h; simp [classify, h]
  · intro h1 h2 h3; simp [classify, h1, h2, h3]
  · intro h1 h2 h3
    rcases h2 with h2 | h2 <;> simp [classify, h1, h2, h3]
  · intro h1 h2 h3 h4
    rcases h2 with h2 | h2 <;> simp [classify, h1, h2, h3, h4]

/-- C8 witness: the ordered rules applied at concrete inputs, including a
dotted name that the filesystem oracle recognizes (not classified `ip`). -/
theorem c8_classify_rules_witness :
    classify (fun _ => false) "  " = ⟨"text", ""⟩ ∧
    classify (fun _ => true) "/etc/app.conf" = ⟨"path", "/etc/app.conf"⟩ :=
  ⟨(c8_classify_rules (fun _ => false) "  ").1 rfl,
   (c8_classify_rules (fun _ => true) "/etc/app.conf").2.2.1 (by decide)
      (Or.inr rfl) (Or.inl (by decide))⟩

/-! ## Claim C9: the fallback is defined, non-empty, and starts with the word -/

/-- C9 (confirmed): for every supported command word, every clipboard and
every history, the composer fallback is defined, non-empty, and starts
with the word — for the static default and for every templated override. -/
theorem c9_fallback_nonempty_starts_with_word :
    ∀ (pfx base : String) (cb : Clipboard) (hist : List String),
    BASE_FALLBACK pfx = some base →
    customFallback pfx cb = some (customFallbackBase base pfx cb) ∧
    customFallbackBase base pfx cb ≠ "" ∧
    strStartsWith (customFallbackBase base pfx cb) pfx = true ∧
    generateGeneralSuggestion pfx cb hist .exc = some (customFallbackBase base pfx cb) := by
  intro pfx base cb hist h
  refine ⟨by simp [customFallback, h], ?_, ?_,
    by simp [generateGeneralSuggestion, h, generalSuggestionCore]⟩
  · rcases BASE_FALLBACK_cases h with ⟨h1, h2⟩ | ⟨h1, h2⟩ | ⟨h1, h2⟩ | ⟨h1, h2⟩ |
      ⟨h1, h2⟩ | ⟨h1, h2⟩ | ⟨h1, h2⟩ <;>
      subst h1 <;> subst h2 <;>
      unfold customFallbackBase <;>
      split_ifs with hc1 hc2 hc3 <;>
      first
        | exact append_ne_empty_left _ _ (by decide)
        | exact absurd hc1.1 (by decide)
        | exact absurd hc2.1 (by decide)
        | exact absurd hc3.1 (by decide)
        | decide
  · rcases BASE_FALLBACK_cases h with ⟨h1, h2⟩ | ⟨h1, h2⟩ | ⟨h1, h2⟩ | ⟨h1, h2⟩ |
      ⟨h1, h2⟩ | ⟨h1, h2⟩ | ⟨h1, h2⟩ <;>
      subst h1 <;> subst h2 <;>
      unfold customFallbackBase <;>
      split_ifs with hc1 hc2 hc3 <;>
      first
        | exact strStartsWith_append_left _ _ _ (by decide)
        | exact absurd hc1.1 (by decide)
        | exact absurd hc2.1 (by decide)
        | exact absurd hc3.1 (by decide)
        | decide

/-- C9 witness: instantiated at `ssh` with a templated override. -/
theorem c9_fallback_nonempty_starts_with_word_witness :
    customFallbackBase "ssh root@192.168.1.1" "ssh" ⟨"ip", "10.0.0.7"⟩ ≠ "" ∧
    strStartsWith (customFallbackBase "ssh root@192.168.1.1" "ssh" ⟨"ip", "10.0.0.7"⟩)
      "ssh" = true :=
  ⟨(c9_fallback_nonempty_starts_with_word "ssh" "ssh root@192.168.1.1"
      ⟨"ip", "10.0.0.7"⟩ [] rfl).2.1,
   (c9_fallback_nonempty_starts_with_word "ssh" "ssh root@192.168.1.1"
      ⟨"ip", "10.0.0.7"⟩ [] rfl).2.2.1⟩



/-! ## Claims C4 and C10: the HTTP protocol surface -/

/-- A decode oracle for the counterexamples and witnesses: exactly the
empty JSON object decodes (to the all-defaults request), every other body
fails, matching `json.loads` on the two bodies involved. -/
def parseW : String → Option CompletionReq :=
  fun s => if s = emptyObjectBody then some defaultReq else none

/-- Unfolding of `do_POST` on the `/complete` path. -/
lemma do_POST_complete_cases (parse : String → Option CompletionReq) (engine : EngineResult)
    (len : Nat) (body : String) :
    do_POST parse engine "/complete" len body =
      match parse (if len > 0 then body else emptyObjectBody) with
      | none => (400, Payload.err "bad_json")
      | some req =>
        if req.pfx = "" ∨ BASE_FALLBACK req.pfx = none then (400, Payload.err "bad_prefix")
        else inferResponse req engine := by
  unfold do_POST routePost
  rw [if_neg (fun hx : "/complete" ≠ "/complete" => hx rfl)]
  cases parse (if len > 0 then body else emptyObjectBody) with
  | none => rfl
  | some req =>
    dsimp only
    split_ifs <;> rfl

/-- C4 counterexample: a POST to `/complete` whose body is empty does not
decode as JSON, yet the answer is 400 `bad_prefix`, not 400 `bad_json` —
refuting the claimed "bad_json iff the body does not parse". -/
theorem c4_counterexample :
    parseW "" = none ∧
    do_POST parseW .exc "/complete" 0 "" = (400, Payload.err "bad_prefix") ∧
    Payload.err "bad_prefix" ≠ Payload.err "bad_json" := by
  refine ⟨by decide, by decide, by decide⟩

/-- C4 (amended): once listening, `GET /health` always answers
`200 {status: ok}` and any other GET path 404; a POST to any other path is
404; a POST to `/complete` with an empty body (`Content-Length` 0 or
absent) is answered 400 `bad_prefix` (the handler substitutes the empty
JSON object, whose command word defaults to the empty string); for a
non-empty body, 400 `bad_json` is returned exactly when the body fails to
decode, 400 `bad_prefix` exactly when it decodes to an empty or unknown
command word, and a `200 {suggestion}` response otherwise.  Every request
receives one of these responses (the handler is total). -/
theorem c4_protocol_surface :
    ∀ (parse : String → Option CompletionReq) (engine : EngineResult)
      (len : Nat) (body : String) (reqE : CompletionReq),
    parse emptyObjectBody = some reqE → reqE.pfx = "" →
    (do_GET "/health" = (200, Payload.statusOk)) ∧
    (∀ p, p ≠ "/health" → do_GET p = (404, Payload.err "not_found")) ∧
    (∀ p, p ≠ "/complete" → do_POST parse engine p len body = (404, Payload.err "not_found")) ∧
    (len = 0 → do_POST parse engine "/complete" len body = (400, Payload.err "bad_prefix")) ∧
    (len ≠ 0 →
      (do_POST parse engine "/complete" len body = (400, Payload.err "bad_json") ↔
        parse body = none)) ∧
    (∀ req, len ≠ 0 → parse body = some req → (req.pfx = "" ∨ BASE_FALLBACK req.pfx = none) →
      do_POST parse engine "/complete" len body = (400, Payload.err "bad_prefix")) ∧
    (∀ req, len ≠ 0 → parse body = some req → req.pfx ≠ "" → BASE_FALLBACK req.pfx ≠ none →
      ∃ s, do_POST parse engine "/complete" len body = (200, Payload.sugg s)) := by
  intro parse engine len body reqE hE hpfxE
  refine ⟨rfl, ?_, ?_, ?_, ?_, ?_, ?_⟩
  · intro p hp
    unfold do_GET
    rw [if_neg hp]
  · intro p hp
    unfold do_POST routePost
    rw [if_pos hp]
  · intro hlen
    subst hlen
    rw [do_POST_complete_cases]
    have hb0 : (if (0 : Nat) > 0 then body else emptyObjectBody) = emptyObjectBody := rfl
    rw [hb0, hE]
    simp [hpfxE]
  · intro hlen
    have hgt : len > 0 := Nat.pos_of_ne_zero hlen
    rw [do_POST_complete_cases, if_pos hgt]
    constructor
    · intro hresp
      cases hb : parse body with
      | none => rfl
      | some req =>
        rw [hb] at hresp
        simp only at hresp
        split_ifs at hresp
        · simp at hresp
        · simp [inferResponse] at hresp
    · intro hb
      rw [hb]
  · intro req hlen hb hbad
    have hgt : len > 0 := Nat.pos_of_ne_zero hlen
    rw [do_POST_complete_cases, if_pos hgt, hb]
    simp only
    rw [if_pos hbad]
  · intro req hlen hb h1 h2
    have hgt : len > 0 := Nat.pos_of_ne_zero hlen
    rw [do_POST_complete_cases, if_pos hgt, hb]
    simp only
    rw [if_neg (fun hx => hx.elim h1 h2)]
    exact ⟨_, rfl⟩

/-- C4 witness: the amended surface at concrete requests — a health probe,
an unparsable non-empty body, and a valid `ls` completion. -/
theorem c4_protocol_surface_witness :
    do_GET "/health" = (200, Payload.statusOk) ∧
    do_POST parseW .exc "/complete" 6 "not js" = (400, Payload.err "bad_json") ∧
    do_POST parseW .exc "/complete" 0 "" = (400, Payload.err "bad_prefix") :=
  ⟨(c4_protocol_surface parseW .exc 6 "not js" defaultReq rfl rfl).1,
   ((c4_protocol_surface parseW .exc 6 "not js" defaultReq rfl rfl).2.2.2.2.1
      (by decide)).mpr rfl,
   (c4_protocol_surface parseW .exc 0 "" defaultReq rfl rfl).2.2.2.1 rfl⟩

/-- C10 (confirmed): an empty POST body is never answered `bad_json`: the
handler substitutes the empty JSON object, so the answer is `bad_prefix`;
and `bad_json` arises only from a non-empty body that fails to decode. -/
theorem c10_empty_body_never_bad_json :
    ∀ (parse : String → Option CompletionReq) (engine : EngineResult)
      (body : String) (reqE : CompletionReq),
    parse emptyObjectBody = some reqE → reqE.pfx = "" →
    (do_POST parse engine "/complete" 0 body = (400, Payload.err "bad_prefix")) ∧
    (do_POST parse engine "/complete" 0 body ≠ (400, Payload.err "bad_json")) ∧
    (∀ len b, do_POST parse engine "/complete" len b = (400, Payload.err "bad_json") →
      len ≠ 0 ∧ parse b = none) := by
  intro parse engine body reqE hE hpfxE
  have hb0 : ∀ b : String, (if (0 : Nat) > 0 then b else emptyObjectBody) = emptyObjectBody :=
    fun _ => rfl
  have hmain : ∀ b : String,
      do_POST parse engine "/complete" 0 b = (400, Payload.err "bad_prefix") := by
    intro b
    rw [do_POST_complete_cases, hb0 b, hE]
    simp [hpfxE]
  refine ⟨hmain body, by rw [hmain body]; decide, ?_⟩
  intro len b hresp
  by_cases hlen : len = 0
  · subst hlen
    rw [hmain b] at hresp
    exact absurd hresp (by decide)
  · refine ⟨hlen, ?_⟩
    have hgt : len > 0 := Nat.pos_of_ne_zero hlen
    rw [do_POST_complete_cases, if_pos hgt] at hresp
    cases hb : parse b with
    | none => rfl
    | some req =>
      rw [hb] at hresp
      simp only at hresp
      split_ifs at hresp
      · simp at hresp
      · simp [inferResponse] at hresp

/-- C10 witness: the concrete empty-body request under the concrete
decode oracle. -/
theorem c10_empty_body_never_bad_json_witness :
    do_POST parseW .exc "/complete" 0 "ignored" = (400, Payload.err "bad_prefix") ∧
    do_POST parseW .exc "/complete" 0 "ignored" ≠ (400, Payload.err "bad_json") :=
  ⟨(c10_empty_body_never_bad_json parseW .exc "ignored" defaultReq rfl rfl).1,
   (c10_empty_body_never_bad_json parseW .exc "ignored" defaultReq rfl rfl).2.1⟩

/-! ## Claim C6: idempotent startup on an occupied port -/

/-- C6 (confirmed): when binding fails with "address already in use"
(errno 48 or 98), startup probes `/health`: a healthy occupant makes the
process print the already-running banner and exit 0 as a no-op; otherwise
it prints the distinct foreign-occupant error and exits 1.  In both cases
no signal of any kind is sent to the occupant. -/
theorem c6_bind_failure_idempotent_start :
    ∀ (host : String) (port e : Nat) (healthAlive : Bool),
    portInUseErrno e = true →
    (healthAlive = true →
      startMain host port (some e) healthAlive =
        [.print (alreadyRunningMsg host port), .exitWith 0]) ∧
    (healthAlive = false →
      startMain host port (some e) healthAlive =
        [.printErr (foreignPortMsg host port), .exitWith 1]) ∧
    (∀ a ∈ startMain host port (some e) healthAlive, ∀ pids sig, a ≠ Act.signal pids sig) := by
  intro host port e alive he
  refine ⟨?_, ?_, ?_⟩
  · intro h; subst h; unfold startMain; dsimp only; rw [if_pos he]; rfl
  · intro h; subst h; unfold startMain; dsimp only; rw [if_pos he]; rfl
  · intro a ha pids sig
    unfold startMain at ha
    dsimp only at ha
    rw [if_pos he] at ha
    cases alive <;> simp at ha <;> rcases ha with ha | ha <;> subst ha <;> simp

/-- C6 witness: errno 98 with a healthy and an unhealthy occupant. -/
theorem c6_bind_failure_idempotent_start_witness :
    startMain "127.0.0.1" 8765 (some 98) true =
      [.print (alreadyRunningMsg "127.0.0.1" 8765), .exitWith 0] ∧
    startMain "127.0.0.1" 8765 (some 48) false =
      [.printErr (foreignPortMsg "127.0.0.1" 8765), .exitWith 1] :=
  ⟨(c6_bind_failure_idempotent_start "127.0.0.1" 8765 98 true rfl).1 rfl,
   (c6_bind_failure_idempotent_start "127.0.0.1" 8765 48 false rfl).2.1 rfl⟩

/-! ## Claim C7: the `status` probe chain -/

/-- C7 counterexample: a live listener on the port (the port-listener
query would succeed) while the pid record is absent and `/health` does not
answer — `status` prints `STOPPED` and exits 1, because the source
consults the port-listener query only after a successful `/health` call,
not as an independent third probe. -/
theorem c7_counterexample :
    (⟨none, none, none, none, [42], [], fun p => p == 42, false⟩ : SysState).lsofPids
        = [42] ∧
    pyPidRunning ⟨none, none, none, none, [42], [], fun p => p == 42, false⟩ 42 = true ∧
    runStatus ⟨none, none, none, none, [42], [], fun p => p == 42, false⟩ "127.0.0.1" 8765
      = ("STOPPED", 1) := by
  refine ⟨by decide, by decide, by decide⟩

/-- C7 (amended): `status` probes, in order: (1) the pid-file record with
a liveness signal; (2) a live `/health` call — on success it reports the
first pid listening on the port, else the first process-table pid, else a
literal `?`, always exiting 0; (3) the meta-file record with a liveness
signal, reported with the meta host and port; (4) the process-table scan;
if all fail it prints `STOPPED` and exits 1.  The port-listener and
process-table lookups inside (2) only choose the reported pid after the
health call has already succeeded. -/
theorem c7_status_probe_chain : ∀ (w : SysState) (host : String) (port : Nat),
    (∀ p, pidFileHit w = some p → runStatus w host port = (runningMsg p host port, 0)) ∧
    (pidFileHit w = none → w.healthAlive = true →
      ((∀ p, truthyPid w.lsofPids.head? = some p →
         runStatus w host port = (runningMsg p host port, 0)) ∧
       (truthyPid w.lsofPids.head? = none → ∀ p ps, w.psPids = p :: ps →
         runStatus w host port = (runningMsg p host port, 0)) ∧
       (truthyPid w.lsofPids.head? = none → w.psPids = [] →
         runStatus w host port = ("RUNNING ? " ++ host ++ ":" ++ Nat.repr port, 0)))) ∧
    (pidFileHit w = none → w.healthAlive = false →
      ((∀ p, metaHit w = some p →
         runStatus w host port =
           (runningMsg p (w.metaHost.getD host) (w.metaPort.getD port), 0)) ∧
       (metaHit w = none → ∀ p ps, w.psPids = p :: ps →
         runStatus w host port = (runningMsg p host port, 0)) ∧
       (metaHit w = none → w.psPids = [] → runStatus w host port = ("STOPPED", 1)))) := by
  intro w host port
  refine ⟨?_, ?_, ?_⟩
  · intro p hp
    unfold runStatus
    rw [hp]
  · intro h1 h2
    refine ⟨?_, ?_, ?_⟩
    · intro p hp
      unfold runStatus
      rw [h1, h2, hp]
      rfl
    · intro hl p ps hps
      unfold runStatus
      rw [h1, h2, hl, hps]
      rfl
    · intro hl hps
      unfold runStatus
      rw [h1, h2, hl, hps]
      rfl
  · intro h1 h2
    refine ⟨?_, ?_, ?_⟩
    · intro p hp
      unfold runStatus
      rw [h1, h2, hp]
      rfl
    · intro hm p ps hps
      unfold runStatus
      rw [h1, h2, hm, hps]
      rfl
    · intro hm hps
      unfold runStatus
      rw [h1, h2, hm, hps]
      rfl

/-- C7 witness: the amended chain at two concrete snapshots — a live
pid-file record, and the all-probes-failed `STOPPED` outcome. -/
theorem c7_status_probe_chain_witness :
    runStatus ⟨some 7, none, none, none, [], [], fun p => p == 7, false⟩ "127.0.0.1" 8765
        = (runningMsg 7 "127.0.0.1" 8765, 0) ∧
    runStatus ⟨none, none, none, none, [], [], fun _ => false, false⟩ "127.0.0.1" 8765
        = ("STOPPED", 1) :=
  ⟨(c7_status_probe_chain ⟨some 7, none, none, none, [], [], fun p => p == 7, false⟩
      "127.0.0.1" 8765).1 7 rfl,
   ((c7_status_probe_chain ⟨none, none, none, none, [], [], fun _ => false, false⟩
      "127.0.0.1" 8765).2.2 rfl rfl).2.2 rfl rfl⟩



/-! ## Claim C5: the `stop` command -/

/-- The final re-check succeeds exactly when the port is dead and every
collected candidate pid is dead on the final snapshot. -/
lemma stopOk_iff (w : StopWorld) :
    stopOk w = true ↔
      (w.final.healthAlive = false ∧
        ∀ p ∈ collectPids w.init, pyPidRunning w.final p = false) := by
  unfold stopOk
  simp [Bool.and_eq_true, Bool.not_eq_true', List.all_eq_true]

/-- Printing `STOPPED` forces the final re-check to have succeeded. -/
lemma stopOk_of_print_stopped (w : StopWorld)
    (hp : Act.print "STOPPED" ∈ runStop w) : stopOk w = true := by
  by_cases h : stopOk w = true
  · exact h
  · exfalso
    unfold runStop at hp
    rw [if_neg h] at hp
    unfold stopPhase at hp
    split_ifs at hp <;> simp at hp

/-- An all-dead snapshot: nothing recorded, nothing listening, nothing in
the process table, no pid alive, the port dead. -/
def sysQuiet : SysState := ⟨none, none, none, none, [], [], fun _ => false, false⟩

/-- A `stop` run through an unchanging all-dead world. -/
def stopWorldQuiet : StopWorld := ⟨sysQuiet, sysQuiet, sysQuiet, sysQuiet⟩

/-- C5 (confirmed): `stop` collects the union of the four discovery
strategies filtered by liveness; always removes both persisted records;
sends SIGTERM (with the 3 s poll) exactly when a candidate is alive, and
escalates to SIGKILL (with the strictly shorter 2 s poll) exactly when the
graceful poll does not reach quiescence; prints `STOPPED` and exits 0
exactly when, at the final re-check, no collected candidate is alive and
the port no longer answers `/health` — printing `STOPPED_WITH_ISSUE` and
exiting 1 otherwise.  The last conjunct is the double-invocation property:
after a `STOPPED` run, a second run in a world where the records stay
deleted, dead pids stay dead, the port stays dead, and any pid a discovery
strategy still reports was already a candidate or is dead, prints
`STOPPED` and exits 0 again. -/
theorem c5_stop_behaviour : ∀ w : StopWorld,
    (∀ p : Nat, p ∈ collectPids w.init ↔
      ((w.init.pidFile = some p ∨ w.init.metaPid = some p ∨ p ∈ w.init.lsofPids ∨
          p ∈ w.init.psPids) ∧ pyPidRunning w.init p = true)) ∧
    Act.removeRecords ∈ runStop w ∧
    (Act.signal (collectPids w.init) SIGTERM ∈ runStop w ↔ collectPids w.init ≠ []) ∧
    (Act.signal (collectPids w.init) SIGKILL ∈ runStop w ↔
      (collectPids w.init ≠ [] ∧ quiescent w.afterTerm (collectPids w.init) = false)) ∧
    STOP_KILL_POLL_DS < STOP_TERM_POLL_DS ∧
    ((Act.print "STOPPED" ∈ runStop w ∧ Act.exitWith 0 ∈ runStop w) ↔
      (w.final.healthAlive = false ∧
        ∀ p ∈ collectPids w.init, pyPidRunning w.final p = false)) ∧
    ((Act.print "STOPPED_WITH_ISSUE" ∈ runStop w ∧ Act.exitWith 1 ∈ runStop w) ↔
      ¬(w.final.healthAlive = false ∧
        ∀ p ∈ collectPids w.init, pyPidRunning w.final p = false)) ∧
    (∀ w2 : StopWorld,
      Act.print "STOPPED" ∈ runStop w →
      w2.init.pidFile = none → w2.init.metaPid = none →
      (∀ p, pyPidRunning w.final p = false → pyPidRunning w2.init p = false) →
      (∀ p, p ∈ w2.init.lsofPids ∨ p ∈ w2.init.psPids →
        p ∈ collectPids w.init ∨ pyPidRunning w2.init p = false) →
      (w.final.healthAlive = false → w2.final.healthAlive = false) →
      (Act.print "STOPPED" ∈ runStop w2 ∧ Act.exitWith 0 ∈ runStop w2)) := by
  intro w
  refine ⟨?_, ?_, ?_, ?_, ?_, ?_, ?_, ?_⟩
  · intro p
    simp [collectPids, List.mem_filter, List.mem_dedup, List.mem_append,
      Option.mem_toList, Option.mem_def]
  · simp [runStop]
  · constructor
    · intro h hnil
      have hph : stopPhase w = [] := by unfold stopPhase; rw [if_pos hnil]
      unfold runStop at h
      rw [hph] at h
      split_ifs at h <;> simp at h
    · intro hne
      unfold runStop stopPhase
      rw [if_neg hne]
      simp
  · constructor
    · intro h
      by_cases hnil : collectPids w.init = []
      · have hph : stopPhase w = [] := by unfold stopPhase; rw [if_pos hnil]
        unfold runStop at h
        rw [hph] at h
        split_ifs at h <;> simp at h
      · by_cases hq : quiescent w.afterTerm (collectPids w.init) = true
        · unfold runStop stopPhase at h
          rw [if_neg hnil, if_pos hq] at h
          split_ifs at h <;>
            simp [SIGTERM, SIGKILL, STOP_TERM_POLL_DS, STOP_KILL_POLL_DS] at h
        · exact ⟨hnil, Bool.eq_false_iff.mpr hq⟩
    · rintro ⟨hne, hq⟩
      unfold runStop stopPhase
      rw [if_neg hne, if_neg (by simp [hq])]
      simp
  · decide
  · constructor
    · rintro ⟨hp, _⟩
      exact (stopOk_iff w).mp (stopOk_of_print_stopped w hp)
    · intro hrhs
      have hok : stopOk w = true := (stopOk_iff w).mpr hrhs
      unfold runStop
      rw [if_pos hok]
      exact ⟨by simp, by simp⟩
  · constructor
    · rintro ⟨hp, _⟩ hrhs
      have hok : stopOk w = true := (stopOk_iff w).mpr hrhs
      unfold runStop at hp
      rw [if_pos hok] at hp
      unfold stopPhase at hp
      split_ifs at hp <;> simp at hp
    · intro hrhs
      have hok : stopOk w = false := by
        by_cases h : stopOk w = true
        · exact absurd ((stopOk_iff w).mp h) hrhs
        · exact Bool.eq_false_iff.mpr h
      unfold runStop
      rw [if_neg (by simp [hok])]
      exact ⟨by simp, by simp⟩
  · intro w2 h1 hpid hmeta hstable hdisc hport
    have hcond := (stopOk_iff w).mp (stopOk_of_print_stopped w h1)
    have hc2 : collectPids w2.init = [] := by
      unfold collectPids
      rw [List.filter_eq_nil_iff]
      intro p hp
      rw [List.mem_dedup] at hp
      simp only [List.mem_append, Option.mem_toList, Option.mem_def, hpid, hmeta] at hp
      have hp2 : p ∈ w2.init.lsofPids ∨ p ∈ w2.init.psPids := by
        rcases hp with ((h | h) | h) | h
        · cases h
        · cases h
        · exact Or.inl h
        · exact Or.inr h
      rcases hdisc p hp2 with hmem | hdead
      · have hdeadw : pyPidRunning w.final p = false := hcond.2 p hmem
        have hdead2 := hstable p hdeadw
        simp [hdead2]
      · simp [hdead]
    have hok2 : stopOk w2 = true := by
      unfold stopOk
      rw [hc2, hport hcond.1]
      rfl
    unfold runStop
    rw [if_pos hok2]
    exact ⟨by simp, by simp⟩

/-- C5 witness: the behaviour applied to the quiet world — the records
are removed, a first `STOPPED` run, and the second run also prints
`STOPPED` and exits 0. -/
theorem c5_stop_behaviour_witness :
    Act.removeRecords ∈ runStop stopWorldQuiet ∧
    (Act.print "STOPPED" ∈ runStop stopWorldQuiet ∧
      Act.exitWith 0 ∈ runStop stopWorldQuiet) :=
  ⟨(c5_stop_behaviour stopWorldQuiet).2.1,
   (c5_stop_behaviour stopWorldQuiet).2.2.2.2.2.2.2 stopWorldQuiet (by decide) rfl rfl
     (fun _ h => h) (fun p hp => by simp [stopWorldQuiet, sysQuiet] at hp)
     (fun _ => rfl)⟩



/-! ## Claim C1: serialized inference and eventual responses -/

/-- C1 (confirmed): for every number of concurrent `/complete` requests
and every per-thread request data — (1) in every reachable interleaving at
most one thread is inside the inference section (mutual exclusion under
`INFER_LOCK`); (2) every interleaving from the initial state takes at most
`3 n` steps, so no run is infinite; (3) any reachable state from which no
thread can step has every thread finished with a recorded well-formed
response — together: every request eventually receives a well-formed
response, and inference invocations never overlap. -/
theorem c1_inference_serialized_all_respond :
    ∀ (n : ℕ) (env : Fin n → ThreadCtx),
    (∀ s : SState n, Reachable env s →
      ∀ t u : Fin n, s.pc t = .crit → s.pc u = .crit → t = u) ∧
    (∀ l : List (SState n), List.Chain (Step env) (initState n) l → l.length ≤ 3 * n) ∧
    (∀ s : SState n, Reachable env s → (∀ s2, ¬ Step env s s2) →
      ∀ t : Fin n, s.pc t = .done ∧ ∃ r, s.resp t = some r ∧ WellFormedResp r) := by
  intro n env
  refine ⟨?_, ?_, ?_⟩
  · intro s hs t u ht hu
    obtain ⟨i1, _, _, _⟩ := inv_reachable hs
    have h1 := i1 t ht
    have h2 := i1 u hu
    rw [h1] at h2
    exact Option.some.inj h2
  · intro l hl
    have h := chain_length_le_meas l (initState n) hl
    rw [meas_init] at h
    exact h
  · intro s hs hterm t
    have hinv := inv_reachable hs
    have hdone := terminal_all_done hinv hterm t
    exact ⟨hdone, hinv.2.2.2 t hdone⟩

/-- A concrete single-request pool: thread 0 posts a valid `ls` request
and the engine answers `ls -la`. -/
def reqW : CompletionReq := ⟨"ls", ⟨"text", ""⟩, []⟩

/-- The thread data of the concrete pool. -/
def envW : Fin 1 → ThreadCtx := fun _ => ⟨"/complete", some reqW, .ok "ls -la"⟩

def t0 : Fin 1 := ⟨0, Nat.zero_lt_one⟩

/-- The concrete pool after thread 0 passed validation. -/
def sW1 : SState 1 :=
  ⟨Function.update (initState 1).pc t0 .want, (initState 1).lock, (initState 1).resp⟩

/-- The concrete pool after thread 0 acquired the lock. -/
def sW2 : SState 1 := ⟨Function.update sW1.pc t0 .crit, some t0, sW1.resp⟩

/-- The concrete pool after thread 0 responded and released the lock. -/
def sW3 : SState 1 :=
  ⟨Function.update sW2.pc t0 .done, none,
    Function.update sW2.resp t0 (some (inferResponse reqW (envW t0).engine))⟩

lemma stepW1 : Step envW (initState 1) sW1 := Step.enter (initState 1) t0 reqW rfl rfl

lemma stepW2 : Step envW sW1 sW2 := Step.acquire sW1 t0 rfl rfl

lemma stepW3 : Step envW sW2 sW3 := Step.finish sW2 t0 reqW rfl rfl rfl

lemma reachW2 : Reachable envW sW2 :=
  Relation.ReflTransGen.tail (Relation.ReflTransGen.tail Relation.ReflTransGen.refl stepW1)
    stepW2

lemma reachW3 : Reachable envW sW3 := Relation.ReflTransGen.tail reachW2 stepW3

lemma sW3_pc_done : ∀ t : Fin 1, sW3.pc t = .done := by decide

lemma termW3 : ∀ s2, ¬ Step envW sW3 s2 := by
  intro s2 h
  cases h with
  | reject t c p h1 h2 => rw [sW3_pc_done t] at h1; cases h1
  | enter t req h1 h2 => rw [sW3_pc_done t] at h1; cases h1
  | acquire t h1 h2 => rw [sW3_pc_done t] at h1; cases h1
  | finish t req h1 h2 h3 => rw [sW3_pc_done t] at h1; cases h1

/-- C1 witness: the serialization theorem applied to the concrete
single-request pool — a reachable state with the lock held, the length
bound on the empty run, and the terminal state with its well-formed
response. -/
theorem c1_inference_serialized_all_respond_witness :
    Reachable envW sW2 ∧ sW2.pc t0 = TPc.crit ∧ t0 = t0 ∧
    ([] : List (SState 1)).length ≤ 3 * 1 ∧
    (sW3.pc t0 = TPc.done ∧ ∃ r, sW3.resp t0 = some r ∧ WellFormedResp r) := by
  refine ⟨reachW2, rfl, ?_, ?_, ?_⟩
  · exact (c1_inference_serialized_all_respond 1 envW).1 sW2 reachW2 t0 t0 rfl rfl
  · exact (c1_inference_serialized_all_respond 1 envW).2.1 [] List.Chain.nil
  · exact (c1_inference_serialized_all_respond 1 envW).2.2 sW3 reachW3 termW3 t0


end ZshAI
